import Mathlib

/-!
Shallow embedding of the pricing, shipping and rate-limiting core of the
eBay media reselling automation repository.

Money and weights are embedded as exact rationals (`ℚ`); Python float
arithmetic on the small decimal constants involved is modelled exactly.
`Decimal.quantize(Decimal('0.01'), ROUND_HALF_UP)` is modelled by
`roundHalfUp2`, Python's builtin `round(x, 2)` (banker's rounding) by
`roundHalfEven2`, and Python `int()` truncation of a positive number by
`Int.floor`.
-/

namespace Shipping

/-- `ShippingMethod` enum from `shipping_calculator.py`. -/
inductive ShippingMethod where
  | media_mail
  | ground_advantage
deriving DecidableEq, Repr

/-- `ShippingMethod(method)` on a string: `some` on the two enum values,
`none` models the `ValueError` raised otherwise. -/
def methodOfString (s : String) : Option ShippingMethod :=
  if s = "media_mail" then some ShippingMethod.media_mail
  else if s = "ground_advantage" then some ShippingMethod.ground_advantage
  else none

/-- The `.value` of each enum member. -/
def methodValue : ShippingMethod → String
  | ShippingMethod.media_mail => "media_mail"
  | ShippingMethod.ground_advantage => "ground_advantage"

/-- `ShippingCalculator.BASE_RATES`. -/
def BASE_RATES : ShippingMethod → ℚ
  | ShippingMethod.media_mail => 4.47
  | ShippingMethod.ground_advantage => 5.25

/-- `ShippingCalculator.WEIGHT_SURCHARGES`: ordered `(threshold, surcharge)`
tiers; `none` is the `float('inf')` threshold. -/
def WEIGHT_SURCHARGES : List (Option ℚ × ℚ) :=
  [(some 16, 0), (some 32, 0.50), (some 48, 1.00), (some 64, 1.50),
   (some 128, 2.00), (none, 3.00)]

/-- `weight_oz < threshold`, where `none` stands for `float('inf')`. -/
def underThreshold (w : ℚ) : Option ℚ → Bool
  | none => true
  | some b => decide (w < b)

/-- The `for threshold, surcharge in WEIGHT_SURCHARGES` loop body plus the
final `return WEIGHT_SURCHARGES[-1][1]` fallback. -/
def findTier (w : ℚ) : List (Option ℚ × ℚ) → ℚ
  | [] => 3.00
  | (b, s) :: rest => if underThreshold w b then s else findTier w rest

/-- `ShippingCalculator.calculate_surcharge`. -/
def calculate_surcharge (w : ℚ) : ℚ :=
  if w ≤ 0 then 0 else findTier w WEIGHT_SURCHARGES

/-- Round-half-even to an integer, the rounding of Python's builtin
`round`. -/
def rhe (y : ℚ) : ℤ :=
  if y - ⌊y⌋ < 1/2 then ⌊y⌋
  else if 1/2 < y - ⌊y⌋ then ⌊y⌋ + 1
  else if 2 ∣ ⌊y⌋ then ⌊y⌋ else ⌊y⌋ + 1

/-- Python `round(x, 2)`. -/
def roundHalfEven2 (x : ℚ) : ℚ := (rhe (x * 100) : ℚ) / 100

/-- `ShippingCalculator.calculate_cost` restricted to a parsed method:
`total = round(base_rate + surcharge, 2)`. -/
def costTotal (rates : ShippingMethod → ℚ) (m : ShippingMethod) (w : ℚ) : ℚ :=
  roundHalfEven2 (rates m + calculate_surcharge w)

/-- `ShippingCalculator.calculate_cost` on a string method: `none` models the
raised `ValueError("Unknown method: ...")`; otherwise the quote total. -/
def calculate_cost (rates : ShippingMethod → ℚ) (method : String) (w : ℚ) :
    Option ℚ :=
  (methodOfString method).map fun m => costTotal rates m w

/-- `media_type.lower()`: per-character ASCII lowering (the media labels in
play are ASCII). -/
def lowerStr (s : String) : String := ⟨s.data.map Char.toLower⟩

/-- The `default_weights` table lookup `default_weights.get(media_type.lower(), 5.0)`
inside `estimate_for_media_type`. -/
def defaultWeight (media_type : String) : ℚ :=
  if lowerStr media_type = "dvd" then 4.5
  else if lowerStr media_type = "bluray" then 4.0
  else if lowerStr media_type = "cd" then 3.0
  else if lowerStr media_type = "vinyl" then 6.0
  else if lowerStr media_type = "steelbook" then 8.0
  else if lowerStr media_type = "boxset" then 12.0
  else 5.0

/-- `weight_oz or default_weights.get(...)`: Python treats `None` and `0.0`
as falsy, so a zero override falls through to the default. -/
def actualWeight (media_type : String) (weight_oz : Option ℚ) : ℚ :=
  match weight_oz with
  | none => defaultWeight media_type
  | some w => if w = 0 then defaultWeight media_type else w

/-- Result dict of `estimate_for_media_type`. -/
structure MediaEstimate where
  media_type : String
  estimated_weight_oz : ℚ
  media_mail_total : ℚ
  ground_advantage_total : ℚ
  recommended : String
deriving DecidableEq, Repr

/-- `ShippingCalculator.estimate_for_media_type`: quotes both methods at the
effective weight and recommends `'media_mail'` iff it is strictly cheaper. -/
def estimate_for_media_type (rates : ShippingMethod → ℚ) (media_type : String)
    (weight_oz : Option ℚ) : MediaEstimate :=
  let w := actualWeight media_type weight_oz
  let mm := costTotal rates ShippingMethod.media_mail w
  let ga := costTotal rates ShippingMethod.ground_advantage w
  { media_type := media_type
    estimated_weight_oz := w
    media_mail_total := mm
    ground_advantage_total := ga
    recommended := if mm < ga then "media_mail" else "ground_advantage" }

/-- The rate table built by `ShippingCalculator({'media_mail': 5.25})`: the
base rates with Media Mail overridden to 5.25, producing a tie with Ground
Advantage. -/
def tieRates : ShippingMethod → ℚ
  | ShippingMethod.media_mail => 5.25
  | ShippingMethod.ground_advantage => 5.25

/-- The surcharge tiering as the spec's evaluation rule reads: the first
tier whose upper bound strictly exceeds the weight, i.e. tiers half-open on
the left. Stated from the spec's words for comparison with
`calculate_surcharge`. -/
def surchargeTiersHalfOpen (w : ℚ) : ℚ :=
  if w < 16 then 0
  else if w < 32 then 0.50
  else if w < 48 then 1.00
  else if w < 64 then 1.50
  else if w < 128 then 2.00
  else 3.00

end Shipping

namespace Pricing

/-- `MIN_LIST_PRICE = 5.00`. -/
def MIN_LIST_PRICE : ℚ := 5.00

/-- `MIN_PROFIT_MARGIN = 2.75`. -/
def MIN_PROFIT_MARGIN : ℚ := 2.75

/-- `SHIPPING_COST.get(media_type, 3.50)` from `price_calculator.py`. -/
def get_shipping_cost (media_type : String) : ℚ :=
  if media_type = "video_game" then 0.00
  else if media_type = "dvd" then 3.50
  else if media_type = "music_cd" then 3.50
  else 3.50

/-- `Decimal(...).quantize(Decimal('0.01'), rounding=ROUND_HALF_UP)`:
round to cents, ties away from zero. -/
def roundHalfUp2 (x : ℚ) : ℚ :=
  if 0 ≤ x then (⌊x * 100 + 1/2⌋ : ℚ) / 100
  else -((⌊-x * 100 + 1/2⌋ : ℚ) / 100)

/-- `PriceCalculator.calculate_list_price`. -/
def calculate_list_price (median_price : ℚ) (markup : ℚ) : ℚ :=
  max (median_price * (1 + markup)) MIN_LIST_PRICE

/-- Result dict of `calculate_best_offer_prices`. -/
structure BestOffers where
  auto_accept : ℚ
  minimum : ℚ
  profit_auto_accept : ℚ
  profit_minimum : ℚ
deriving DecidableEq, Repr

/-- `PriceCalculator.calculate_best_offer_prices`, with the instance fields
`self.cog` and `self.get_shipping_cost()` passed explicitly. -/
def calculate_best_offer_prices (cog shipping list_price : ℚ) : BestOffers :=
  let auto := roundHalfUp2 (list_price * 0.80)
  let minimum := roundHalfUp2 (list_price * 0.70)
  { auto_accept := auto
    minimum := minimum
    profit_auto_accept := auto - cog - shipping
    profit_minimum := minimum - cog - shipping }

/-- One pricing scenario as assembled by the engine (`calculate_list_price`
then `calculate_best_offer_prices`, with `generate_pricing_matrix`'s margin
verdict `profit_auto_accept >= MIN_PROFIT_MARGIN`). -/
structure ScenarioResult where
  list_price : ℚ
  auto_accept : ℚ
  minimum : ℚ
  shipping_cost : ℚ
  profit_auto_accept : ℚ
  profit_minimum : ℚ
  meets_margin_threshold : Bool
deriving DecidableEq, Repr

/-- End-to-end pricing for one item: list price, best-offer tiers, the flat
per-category shipping cost and the auto-accept-only margin verdict. -/
def priceScenario (media_type : String) (cog median_price markup : ℚ) :
    ScenarioResult :=
  let shipping := get_shipping_cost media_type
  let lp := calculate_list_price median_price markup
  let offers := calculate_best_offer_prices cog shipping lp
  { list_price := lp
    auto_accept := offers.auto_accept
    minimum := offers.minimum
    shipping_cost := shipping
    profit_auto_accept := offers.profit_auto_accept
    profit_minimum := offers.profit_minimum
    meets_margin_threshold := decide (MIN_PROFIT_MARGIN ≤ offers.profit_auto_accept) }

end Pricing

namespace RateLimit

/-- The registered rule for one endpoint: `limits[endpoint]` and
`windows[endpoint]`. -/
structure Rule where
  maxRequests : ℕ
  window : ℚ
deriving DecidableEq, Repr

/-- The mutable state of the limiter relevant to one `(endpoint, limit_key)`
pair: its timestamp list `requests[endpoint][limit_key]` plus the shared
`last_cleanup` stamp. Distinct keys have disjoint timestamp lists, so a
single pair is modelled. -/
structure LimiterState where
  ts : List ℚ
  lastCleanup : ℚ
deriving DecidableEq, Repr

/-- Outcome of one `is_allowed` call: the returned pair and the state after
the call. -/
structure CallResult where
  allowed : Bool
  retry_after : Option ℤ
  state : LimiterState
deriving DecidableEq, Repr

/-- `RateLimiter.is_allowed` for a registered endpoint, at clock reading
`now`. `_cleanup_old_timestamps` runs first (a no-op unless
`cleanup_interval` has elapsed; its filter `now - ts < window` keeps the
same elements as the recency filter `ts > now - window`); then the prune,
the admission test, and on denial `int(window - (now - oldest)) + 1`
(truncation of a positive quantity, hence `Int.floor`). On denial with
`maxRequests = 0` and no surviving timestamp the source raises `IndexError`;
`headD 0` stands in for that unreachable-in-practice read. -/
def is_allowed (rule : Rule) (cleanupInterval : ℚ) (st : LimiterState)
    (now : ℚ) : CallResult :=
  let doClean := cleanupInterval ≤ now - st.lastCleanup
  let ts1 := if doClean then st.ts.filter (fun s => now - s < rule.window) else st.ts
  let lc1 := if doClean then now else st.lastCleanup
  let recent := ts1.filter (fun s => now - rule.window < s)
  if recent.length < rule.maxRequests then
    { allowed := true, retry_after := none, state := ⟨recent ++ [now], lc1⟩ }
  else
    { allowed := false
      retry_after := some (⌊rule.window - (now - recent.headD 0)⌋ + 1)
      state := ⟨recent, lc1⟩ }

/-- Run a sequence of `is_allowed` calls at the given clock readings,
recording each call's time and returned pair. -/
def run (rule : Rule) (cleanupInterval : ℚ) (st : LimiterState) :
    List ℚ → List (ℚ × Bool × Option ℤ)
  | [] => []
  | t :: rest =>
      let r := is_allowed rule cleanupInterval st t
      (t, r.allowed, r.retry_after) :: run rule cleanupInterval r.state rest

/-- Number of calls in a run that were admitted and whose time lies in the
half-open interval `(a, b]`. -/
def countAllowedIoc (res : List (ℚ × Bool × Option ℤ)) (a b : ℚ) : ℕ :=
  res.countP fun p => p.2.1 && decide (a < p.1) && decide (p.1 ≤ b)

/-- Number of stored timestamps lying in the half-open interval `(a, b]`. -/
def countIoc (l : List ℚ) (a b : ℚ) : ℕ :=
  l.countP fun s => decide (a < s) && decide (s ≤ b)

/-- The recency predicate `ts > cutoff` with `cutoff = now - window`. -/
def recentP (w now : ℚ) : ℚ → Bool := fun s => decide (now - w < s)

lemma cleanup_filter_recent (l : List ℚ) (now w : ℚ) :
    (l.filter (fun s => decide (now - s < w))).filter
        (fun s => decide (now - w < s))
      = l.filter (fun s => decide (now - w < s)) := by
  rw [List.filter_filter]
  apply List.filter_congr
  intro s _
  have h : decide (now - s < w) = decide (now - w < s) :=
    decide_eq_decide.mpr sub_lt_comm
  rw [h, Bool.and_self]

/-- `is_allowed` with the cleanup sweep collapsed into the recency prune:
both filters keep exactly the timestamps newer than `now - window`. -/
lemma is_allowed_eq (rule : Rule) (cint : ℚ) (st : LimiterState) (now : ℚ) :
    is_allowed rule cint st now =
      if (st.ts.filter (recentP rule.window now)).length < rule.maxRequests then
        ⟨true, none, ⟨st.ts.filter (recentP rule.window now) ++ [now],
          if cint ≤ now - st.lastCleanup then now else st.lastCleanup⟩⟩
      else
        ⟨false,
          some (⌊rule.window -
            (now - (st.ts.filter (recentP rule.window now)).headD 0)⌋ + 1),
          ⟨st.ts.filter (recentP rule.window now),
            if cint ≤ now - st.lastCleanup then now else st.lastCleanup⟩⟩ := by
  unfold is_allowed
  simp only [recentP]
  by_cases h : cint ≤ now - st.lastCleanup <;>
    simp only [h, if_true, if_false, cleanup_filter_recent] <;> rfl

lemma run_cons (rule : Rule) (cint : ℚ) (st : LimiterState) (now : ℚ)
    (rest : List ℚ) :
    run rule cint st (now :: rest) =
      (now, (is_allowed rule cint st now).allowed,
        (is_allowed rule cint st now).retry_after)
      :: run rule cint (is_allowed rule cint st now).state rest := rfl

lemma countAllowedIoc_nil (a b : ℚ) : countAllowedIoc [] a b = 0 := rfl

lemma countAllowedIoc_cons (t : ℚ) (bl : Bool) (r : Option ℤ)
    (res : List (ℚ × Bool × Option ℤ)) (a b : ℚ) :
    countAllowedIoc ((t, bl, r) :: res) a b =
      countAllowedIoc res a b
        + (if bl && decide (a < t) && decide (t ≤ b) then 1 else 0) := by
  simp [countAllowedIoc, List.countP_cons]

/-- Calls whose times all lie beyond the interval contribute no admissions
inside it. -/
lemma countAllowedIoc_run_zero (rule : Rule) (cint a b : ℚ) :
    ∀ (calls : List ℚ) (st : LimiterState), (∀ t ∈ calls, ¬t ≤ b) →
      countAllowedIoc (run rule cint st calls) a b = 0
  | [], _, _ => rfl
  | now :: rest, st, h => by
      rw [run_cons, countAllowedIoc_cons,
        countAllowedIoc_run_zero rule cint a b rest _
          (fun t ht => h t (List.mem_cons_of_mem _ ht))]
      simp [h now (List.mem_cons_self _ _)]

lemma countIoc_le_length (l : List ℚ) (a b : ℚ) : countIoc l a b ≤ l.length := by
  unfold countIoc
  exact List.countP_le_length _

/-- Pruning to the window does not change the interval count as long as the
clock has not yet passed the interval's right end. -/
lemma countIoc_filter_recent (l : List ℚ) (now w a : ℚ) (h : now ≤ a + w) :
    countIoc (l.filter (recentP w now)) a (a + w) = countIoc l a (a + w) := by
  unfold countIoc
  rw [List.countP_filter]
  apply List.countP_congr
  intro s _
  simp only [recentP, Bool.and_eq_true, decide_eq_true_eq, and_iff_left_iff_imp]
  intro hs
  linarith [hs.1]

lemma countIoc_append (l₁ l₂ : List ℚ) (a b : ℚ) :
    countIoc (l₁ ++ l₂) a b = countIoc l₁ a b + countIoc l₂ a b := by
  simp [countIoc]

lemma countIoc_singleton (t a b : ℚ) :
    countIoc [t] a b = if a < t ∧ t ≤ b then 1 else 0 := by
  simp [countIoc, List.countP_cons]

/-- Core admission bound: over any non-decreasing sequence of calls, the
number of admissions whose times fall in `(lo, lo + window]` never exceeds
`maxRequests` minus the interval count already stored in the state. -/
lemma admission_bound (rule : Rule) (cint lo : ℚ) :
    ∀ (calls : List ℚ) (st : LimiterState), List.Sorted (· ≤ ·) calls →
      countAllowedIoc (run rule cint st calls) lo (lo + rule.window)
        ≤ rule.maxRequests - countIoc st.ts lo (lo + rule.window)
  | [], st, _ => by simp [run, countAllowedIoc_nil]
  | now :: rest, st, hs => by
      have hrest : List.Sorted (· ≤ ·) rest := (List.sorted_cons.mp hs).2
      have hmin : ∀ u ∈ rest, now ≤ u := (List.sorted_cons.mp hs).1
      rw [run_cons, countAllowedIoc_cons, is_allowed_eq]
      rcases le_or_lt now (lo + rule.window) with hnow | hnow
      · have hcnt := countIoc_filter_recent st.ts now rule.window lo hnow
        by_cases hlen :
            (st.ts.filter (recentP rule.window now)).length < rule.maxRequests
        · simp only [hlen, if_true]
          have hIH := admission_bound rule cint lo rest
            ⟨st.ts.filter (recentP rule.window now) ++ [now],
              if cint ≤ now - st.lastCleanup then now else st.lastCleanup⟩ hrest
          rw [show (⟨st.ts.filter (recentP rule.window now) ++ [now],
              if cint ≤ now - st.lastCleanup then now
              else st.lastCleanup⟩ : LimiterState).ts
            = st.ts.filter (recentP rule.window now) ++ [now] from rfl,
            countIoc_append, countIoc_singleton, hcnt] at hIH
          have hle : countIoc st.ts lo (lo + rule.window)
              ≤ (st.ts.filter (recentP rule.window now)).length := by
            rw [← hcnt]; exact countIoc_le_length _ _ _
          by_cases hlo : lo < now <;>
            simp [hlo, hnow] at hIH ⊢ <;>
            omega
        · simp only [hlen, if_false, Bool.false_and]
          have hIH := admission_bound rule cint lo rest
            ⟨st.ts.filter (recentP rule.window now),
              if cint ≤ now - st.lastCleanup then now else st.lastCleanup⟩ hrest
          rw [show (⟨st.ts.filter (recentP rule.window now),
              if cint ≤ now - st.lastCleanup then now
              else st.lastCleanup⟩ : LimiterState).ts
            = st.ts.filter (recentP rule.window now) from rfl, hcnt] at hIH
          simpa using hIH
      · have hball : ∀ st' : LimiterState,
            countAllowedIoc (run rule cint st' rest) lo (lo + rule.window) = 0 :=
          fun st' => countAllowedIoc_run_zero rule cint lo (lo + rule.window)
            rest st' (fun t ht => by have := hmin t ht; intro hc; linarith)
        have hnot : ¬(now ≤ lo + rule.window) := not_le.mpr hnow
        split <;> rw [hball] <;> simp [hnot]

end RateLimit

namespace Shipping

/-- C6 counterexample: at exactly 16 oz the code's surcharge is 0.50, not
the 0.00 the claim's inclusive tier table (`0 < w ≤ 16 → 0.00`) demands. -/
theorem c6_tier_boundary_counterexample :
    calculate_surcharge 16 = 0.50 ∧ (0.50 : ℚ) ≠ 0.00 := by
  norm_num [calculate_surcharge, findTier, WEIGHT_SURCHARGES, underThreshold]

/-- C6 amended: `calculate_surcharge` returns 0.00 for `weight_oz ≤ 0`, and
otherwise realises the tier table with half-open-on-the-left tiers — the
first tier whose upper bound strictly exceeds the weight: 0.00 for
`w < 16`, 0.50 for `16 ≤ w < 32`, 1.00 for `32 ≤ w < 48`, 1.50 for
`48 ≤ w < 64`, 2.00 for `64 ≤ w < 128` and 3.00 for `w ≥ 128`; in
particular the surcharge at exactly 16 oz is 0.50. -/
theorem c6_surcharge_tiers_half_open (w : ℚ) :
    calculate_surcharge w = surchargeTiersHalfOpen w := by
  by_cases h0 : w ≤ 0
  · have h16 : w < 16 := by linarith
    simp [calculate_surcharge, surchargeTiersHalfOpen, h0, h16]
  · by_cases h16 : w < 16
    · simp [calculate_surcharge, surchargeTiersHalfOpen, WEIGHT_SURCHARGES,
        findTier, underThreshold, h0, h16]
    · by_cases h32 : w < 32
      · simp [calculate_surcharge, surchargeTiersHalfOpen, WEIGHT_SURCHARGES,
          findTier, underThreshold, h0, h16, h32]
      · by_cases h48 : w < 48
        · simp [calculate_surcharge, surchargeTiersHalfOpen, WEIGHT_SURCHARGES,
            findTier, underThreshold, h0, h16, h32, h48]
        · by_cases h64 : w < 64
          · simp [calculate_surcharge, surchargeTiersHalfOpen, WEIGHT_SURCHARGES,
              findTier, underThreshold, h0, h16, h32, h48, h64]
          · by_cases h128 : w < 128
            · simp [calculate_surcharge, surchargeTiersHalfOpen,
                WEIGHT_SURCHARGES, findTier, underThreshold, h0, h16, h32,
                h48, h64, h128]
            · simp [calculate_surcharge, surchargeTiersHalfOpen,
                WEIGHT_SURCHARGES, findTier, underThreshold, h0, h16, h32,
                h48, h64, h128]

/-- C7 counterexample: with the custom rate configuration
`{'media_mail': 5.25}` both methods quote the same total for a dvd, the
Media Mail total is therefore ≤ the Ground Advantage total, yet the code
recommends `'ground_advantage'` — ties do not favor Media Mail. -/
theorem c7_tie_counterexample :
    (estimate_for_media_type tieRates "dvd" none).media_mail_total
        ≤ (estimate_for_media_type tieRates "dvd" none).ground_advantage_total
    ∧ (estimate_for_media_type tieRates "dvd" none).recommended
        = "ground_advantage"
    ∧ ("ground_advantage" : String) ≠ "media_mail" := by
  refine ⟨le_refl _, ?_, by decide⟩
  norm_num [estimate_for_media_type, tieRates, costTotal]

/-- C7 amended: for every rate configuration, media type and weight
override, `estimate_for_media_type` recommends `'media_mail'` iff the Media
Mail total is strictly lower than the Ground Advantage total, and
`'ground_advantage'` otherwise — ties favor Ground Advantage. -/
theorem c7_recommended_strict_cheaper (rates : ShippingMethod → ℚ)
    (media_type : String) (weight_oz : Option ℚ) :
    ((estimate_for_media_type rates media_type weight_oz).recommended
        = "media_mail"
      ↔ costTotal rates ShippingMethod.media_mail
            (actualWeight media_type weight_oz)
          < costTotal rates ShippingMethod.ground_advantage
            (actualWeight media_type weight_oz))
    ∧ ((estimate_for_media_type rates media_type weight_oz).recommended
        = "ground_advantage"
      ↔ ¬costTotal rates ShippingMethod.media_mail
            (actualWeight media_type weight_oz)
          < costTotal rates ShippingMethod.ground_advantage
            (actualWeight media_type weight_oz)) := by
  have hs1 : ("media_mail" : String) ≠ "ground_advantage" := by decide
  have hs2 : ("ground_advantage" : String) ≠ "media_mail" := by decide
  unfold estimate_for_media_type
  by_cases h : costTotal rates ShippingMethod.media_mail
      (actualWeight media_type weight_oz)
    < costTotal rates ShippingMethod.ground_advantage
      (actualWeight media_type weight_oz) <;>
    simp [h, hs1, hs2]

end Shipping

namespace Shipping

/-- C8: `calculate_cost` fails (raises `ValueError`, an invalid-argument
error, modelled by `none`) iff the method string is neither of the two
configured enumerations; on a configured method it returns the quote for
exactly that method — `round(base_rate + surcharge, 2)` — never a
substitute. -/
theorem c8_unknown_method_error (rates : ShippingMethod → ℚ) (method : String)
    (w : ℚ) :
    (calculate_cost rates method w = none
      ↔ method ≠ "media_mail" ∧ method ≠ "ground_advantage")
    ∧ ∀ m, methodOfString method = some m →
        calculate_cost rates method w
            = some (roundHalfEven2 (rates m + calculate_surcharge w))
          ∧ methodValue m = method := by
  by_cases h1 : method = "media_mail"
  · subst h1
    simp [calculate_cost, methodOfString, methodValue, costTotal]
  · by_cases h2 : method = "ground_advantage"
    · subst h2
      simp [calculate_cost, methodOfString, methodValue, costTotal, h1]
    · simp [calculate_cost, methodOfString, h1, h2]

/-- C8 witness: instantiated at the Media Mail method and 10 oz. -/
theorem c8_unknown_method_error_witness :
    (calculate_cost BASE_RATES "media_mail" 10 = none
      ↔ ("media_mail" : String) ≠ "media_mail"
        ∧ ("media_mail" : String) ≠ "ground_advantage")
    ∧ (calculate_cost BASE_RATES "media_mail" 10
        = some (roundHalfEven2
            (BASE_RATES ShippingMethod.media_mail + calculate_surcharge 10))
       ∧ methodValue ShippingMethod.media_mail = "media_mail") :=
  ⟨(c8_unknown_method_error BASE_RATES "media_mail" 10).1,
   (c8_unknown_method_error BASE_RATES "media_mail" 10).2
     ShippingMethod.media_mail (by simp [methodOfString])⟩

/-- C10: a zero (or absent) weight override makes `estimate_for_media_type`
quote the per-type default weight — `weight_oz or default` treats `0.0` as
falsy — and the default table is dvd=4.5, bluray=4.0, cd=3.0, vinyl=6.0,
steelbook=8.0, boxset=12.0, otherwise 5.0. -/
theorem c10_zero_weight_override_ignored (rates : ShippingMethod → ℚ)
    (media_type : String) :
    estimate_for_media_type rates media_type (some 0)
        = estimate_for_media_type rates media_type none
    ∧ (estimate_for_media_type rates media_type none).estimated_weight_oz
        = defaultWeight media_type
    ∧ defaultWeight "dvd" = 4.5 ∧ defaultWeight "bluray" = 4.0
    ∧ defaultWeight "cd" = 3.0 ∧ defaultWeight "vinyl" = 6.0
    ∧ defaultWeight "steelbook" = 8.0 ∧ defaultWeight "boxset" = 12.0
    ∧ defaultWeight "book" = 5.0 := by
  refine ⟨by simp [estimate_for_media_type, actualWeight], rfl,
    ?_, ?_, ?_, ?_, ?_, ?_, ?_⟩ <;> unfold defaultWeight
  · rw [if_pos (by decide)]
  · rw [if_neg (by decide), if_pos (by decide)]
  · rw [if_neg (by decide), if_neg (by decide), if_pos (by decide)]
  · rw [if_neg (by decide), if_neg (by decide), if_neg (by decide),
      if_pos (by decide)]
  · rw [if_neg (by decide), if_neg (by decide), if_neg (by decide),
      if_neg (by decide), if_pos (by decide)]
  · rw [if_neg (by decide), if_neg (by decide), if_neg (by decide),
      if_neg (by decide), if_neg (by decide), if_pos (by decide)]
  · rw [if_neg (by decide), if_neg (by decide), if_neg (by decide),
      if_neg (by decide), if_neg (by decide), if_neg (by decide)]

end Shipping

namespace Pricing

lemma roundHalfUp2_eq_of_nonneg (x : ℚ) (hx : 0 ≤ x) :
    roundHalfUp2 x = (⌊x * 100 + 1/2⌋ : ℚ) / 100 := if_pos hx

lemma roundHalfUp2_mono_of_nonneg (x y : ℚ) (hx : 0 ≤ x) (hxy : x ≤ y) :
    roundHalfUp2 x ≤ roundHalfUp2 y := by
  rw [roundHalfUp2_eq_of_nonneg x hx,
    roundHalfUp2_eq_of_nonneg y (hx.trans hxy)]
  have h1 : (⌊x * 100 + 1/2⌋ : ℤ) ≤ ⌊y * 100 + 1/2⌋ :=
    Int.floor_mono (by linarith)
  have h2 : ((⌊x * 100 + 1/2⌋ : ℤ) : ℚ) ≤ ((⌊y * 100 + 1/2⌋ : ℤ) : ℚ) := by
    exact_mod_cast h1
  linarith

lemma roundHalfUp2_den (x : ℚ) : (roundHalfUp2 x * 100).den = 1 := by
  unfold roundHalfUp2
  by_cases hx : 0 ≤ x
  · rw [if_pos hx, div_mul_cancel₀ _ (by norm_num : (100 : ℚ) ≠ 0)]
    exact Rat.den_intCast _
  · rw [if_neg hx, neg_mul, div_mul_cancel₀ _ (by norm_num : (100 : ℚ) ≠ 0),
      ← Int.cast_neg]
    exact Rat.den_intCast _

/-- C2: for nonnegative median price and markup, `calculate_list_price`
returns exactly `max(median_price * (1 + markup), 5.00)`; 5.00 is an
absolute floor on the result. -/
theorem c2_list_price_formula (median_price markup : ℚ)
    (hm : 0 ≤ median_price) (hk : 0 ≤ markup) :
    calculate_list_price median_price markup
        = max (median_price * (1 + markup)) 5
    ∧ 5 ≤ calculate_list_price median_price markup := by
  constructor
  · norm_num [calculate_list_price, MIN_LIST_PRICE]
  · norm_num [calculate_list_price, MIN_LIST_PRICE, le_max_iff]

/-- C2 witness: instantiated at median 35, markup 10%. -/
theorem c2_list_price_formula_witness :
    calculate_list_price 35 (1/10) = max ((35 : ℚ) * (1 + 1/10)) 5
    ∧ (5 : ℚ) ≤ calculate_list_price 35 (1/10) :=
  c2_list_price_formula 35 (1/10) (by norm_num) (by norm_num)

/-- C3: for any list price ≥ 5.00 (every output of the list-price step),
the best-offer tiers are `round_half_up(list_price*0.80, 2)` and
`round_half_up(list_price*0.70, 2)`, they land on exact cents, and they
satisfy `minimum ≤ auto_accept ≤ list_price`; the 10.005 example rounds
its auto-accept 8.004 down to 8.00. -/
theorem c3_best_offer_ordering_rounding (cog shipping list_price : ℚ)
    (hL : 5 ≤ list_price) :
    (calculate_best_offer_prices cog shipping list_price).auto_accept
        = roundHalfUp2 (list_price * 0.80)
    ∧ (calculate_best_offer_prices cog shipping list_price).minimum
        = roundHalfUp2 (list_price * 0.70)
    ∧ (calculate_best_offer_prices cog shipping list_price).minimum
        ≤ (calculate_best_offer_prices cog shipping list_price).auto_accept
    ∧ (calculate_best_offer_prices cog shipping list_price).auto_accept
        ≤ list_price
    ∧ ((calculate_best_offer_prices cog shipping list_price).auto_accept
        * 100).den = 1
    ∧ ((calculate_best_offer_prices cog shipping list_price).minimum
        * 100).den = 1
    ∧ (calculate_best_offer_prices cog shipping (10.005 : ℚ)).auto_accept
        = 8.00 := by
  refine ⟨rfl, rfl, ?_, ?_, roundHalfUp2_den _, roundHalfUp2_den _, ?_⟩
  · exact roundHalfUp2_mono_of_nonneg _ _ (by linarith) (by linarith)
  · show roundHalfUp2 (list_price * 0.80) ≤ list_price
    rw [roundHalfUp2_eq_of_nonneg _ (by linarith)]
    have h1 : (⌊list_price * 0.80 * 100 + 1/2⌋ : ℚ)
        ≤ list_price * 0.80 * 100 + 1/2 := Int.floor_le _
    rw [div_le_iff₀ (by norm_num : (0 : ℚ) < 100)]
    nlinarith
  · show roundHalfUp2 ((10.005 : ℚ) * 0.80) = 8.00
    norm_num [roundHalfUp2]

/-- C3 witness: instantiated at cog 1, shipping 3.50, list price 10. -/
theorem c3_best_offer_ordering_rounding_witness :
    (calculate_best_offer_prices 1 3.50 10).auto_accept
        = roundHalfUp2 ((10 : ℚ) * 0.80)
    ∧ (calculate_best_offer_prices 1 3.50 10).minimum
        = roundHalfUp2 ((10 : ℚ) * 0.70)
    ∧ (calculate_best_offer_prices 1 3.50 10).minimum
        ≤ (calculate_best_offer_prices 1 3.50 10).auto_accept
    ∧ (calculate_best_offer_prices 1 3.50 10).auto_accept ≤ 10
    ∧ ((calculate_best_offer_prices 1 3.50 10).auto_accept * 100).den = 1
    ∧ ((calculate_best_offer_prices 1 3.50 10).minimum * 100).den = 1
    ∧ (calculate_best_offer_prices 1 3.50 (10.005 : ℚ)).auto_accept = 8.00 :=
  c3_best_offer_ordering_rounding 1 3.50 10 (by norm_num)

/-- C4: the two end-to-end scenarios. A 35.00 median video game at 10%
markup with cog 1.00: list 38.50, auto-accept 30.80, minimum 26.95,
shipping 0.00, profit-at-auto-accept 29.80, margin verdict true. A 2.00
median dvd at 10% markup with cog 1.00: list floored to 5.00, shipping
3.50, profit-at-auto-accept -0.50, margin verdict false. The verdict is
`profit_auto_accept ≥ 2.75` and never reads `profit_minimum`. -/
theorem c4_end_to_end_scenarios :
    priceScenario "video_game" 1 35 (0.10 : ℚ)
        = ⟨38.50, 30.80, 26.95, 0.00, 29.80, 25.95, true⟩
    ∧ priceScenario "dvd" 1 2 (0.10 : ℚ)
        = ⟨5.00, 4.00, 3.50, 3.50, -0.50, -1.00, false⟩ := by
  have hs : ("dvd" : String) ≠ "video_game" := by decide
  constructor <;>
    norm_num [priceScenario, calculate_list_price, calculate_best_offer_prices,
      get_shipping_cost, roundHalfUp2, MIN_LIST_PRICE, MIN_PROFIT_MARGIN,
      ScenarioResult.mk.injEq, max_def, hs]

end Pricing

namespace RateLimit

/-- C1: sliding-window admission ceiling. For a registered rule and any
non-decreasing sequence of call times against one `(endpoint, limit_key)`,
at most `maxRequests` of the calls whose times fall in any window-length
half-open interval `(lo, lo + window]` are admitted (matching the strict
cutoff `ts > now - window`: a call exactly `window` after the oldest
admitted timestamp falls in the next window and is admitted again). And
concretely for `max_requests=3, window=60`: three quick calls are allowed,
the 4th inside the window is denied with `retry_after = 58 ≥ 1`, and a
call 60 s after the oldest admitted timestamp is allowed again. -/
theorem c1_sliding_window_admission_ceiling (rule : Rule) (cint lc0 lo : ℚ)
    (calls : List ℚ) (hsorted : List.Sorted (· ≤ ·) calls) :
    countAllowedIoc (run rule cint ⟨[], lc0⟩ calls) lo (lo + rule.window)
        ≤ rule.maxRequests
    ∧ run ⟨3, 60⟩ 3600 ⟨[], 0⟩ [0, 1, 2, 3, 60]
        = [(0, true, none), (1, true, none), (2, true, none),
           (3, false, some 58), (60, true, none)] := by
  constructor
  · have h := admission_bound rule cint lo calls ⟨[], lc0⟩ hsorted
    simpa [countIoc] using h
  · norm_num [run, is_allowed]

/-- C1 witness: the ceiling instantiated on the concrete 5-call trace. -/
theorem c1_sliding_window_admission_ceiling_witness :
    countAllowedIoc (run ⟨3, 60⟩ 3600 ⟨[], 0⟩ [0, 1, 2, 3, 60]) 0
        ((0 : ℚ) + 60) ≤ 3
    ∧ run ⟨3, 60⟩ 3600 ⟨[], 0⟩ [0, 1, 2, 3, 60]
        = [(0, true, none), (1, true, none), (2, true, none),
           (3, false, some 58), (60, true, none)] :=
  c1_sliding_window_admission_ceiling ⟨3, 60⟩ 3600 0 0 [0, 1, 2, 3, 60]
    (by norm_num [List.sorted_cons])

/-- C5 counterexample: with `max_requests=1, window=60`, an admitted call
at t=0 followed by a denied call at t=0 returns `retry_after = 61`, but
the claim's formula `ceil(window - (now - oldest)) = ceil(60 - 0) = 60`:
the code adds 1 even when the elapsed quantity is an exact integer. -/
theorem c5_retry_after_ceil_counterexample :
    (is_allowed ⟨1, 60⟩ 3600 (is_allowed ⟨1, 60⟩ 3600 ⟨[], 0⟩ 0).state
        0).retry_after = some 61
    ∧ ⌈(60 : ℚ) - ((0 : ℚ) - 0)⌉ = 60
    ∧ (61 : ℤ) ≠ 60 := by
  norm_num [is_allowed]

/-- C5 amended: on denial (with a positive registered limit) the code
returns `retry_after = floor(window - (now - oldest_surviving)) + 1`,
which coincides with the claimed ceiling when the argument is fractional
and exceeds it by one at exact integers; it is always ≥ 1. -/
theorem c5_retry_after_floor_plus_one (rule : Rule) (cint : ℚ)
    (st : LimiterState) (now : ℚ) (hmax : 0 < rule.maxRequests)
    (hdeny : (is_allowed rule cint st now).allowed = false) :
    (is_allowed rule cint st now).retry_after
        = some (⌊rule.window
            - (now - (st.ts.filter
                (fun s => decide (now - rule.window < s))).headD 0)⌋ + 1)
    ∧ ∀ r, (is_allowed rule cint st now).retry_after = some r → 1 ≤ r := by
  rw [is_allowed_eq] at hdeny ⊢
  by_cases hlen :
      (st.ts.filter (recentP rule.window now)).length < rule.maxRequests
  · rw [if_pos hlen] at hdeny
    simp at hdeny
  · rw [if_neg hlen] at hdeny ⊢
    have hne : st.ts.filter (recentP rule.window now) ≠ [] := by
      intro hnil
      rw [hnil] at hlen
      simp at hlen
      omega
    obtain ⟨o, t, ho⟩ : ∃ o t,
        st.ts.filter (recentP rule.window now) = o :: t := by
      cases hfe : st.ts.filter (recentP rule.window now) with
      | nil => exact absurd hfe hne
      | cons o t => exact ⟨o, t, rfl⟩
    refine ⟨rfl, ?_⟩
    intro r hr
    have hmem : o ∈ st.ts.filter (recentP rule.window now) := by
      rw [ho]
      exact List.mem_cons_self _ _
    have hlt : now - rule.window < o :=
      of_decide_eq_true (List.mem_filter.mp hmem).2
    have hfl : (0 : ℤ) ≤ ⌊rule.window - (now - o)⌋ := by
      apply Int.le_floor.mpr
      push_cast
      linarith
    rw [ho] at hr
    simp only [List.headD_cons, Option.some.injEq] at hr
    omega

/-- C5 amended witness: instantiated on the concrete denial at t=0 with one
stored timestamp 0. -/
theorem c5_retry_after_floor_plus_one_witness :
    (is_allowed ⟨1, 60⟩ 3600 ⟨[0], 0⟩ 0).retry_after
        = some (⌊(60 : ℚ)
            - ((0 : ℚ) - (([0] : List ℚ).filter
                (fun s => decide ((0 : ℚ) - 60 < s))).headD 0)⌋ + 1)
    ∧ ∀ r, (is_allowed ⟨1, 60⟩ 3600 ⟨[0], 0⟩ 0).retry_after = some r →
        1 ≤ r :=
  c5_retry_after_floor_plus_one ⟨1, 60⟩ 3600 ⟨[0], 0⟩ 0 (by norm_num)
    (by norm_num [is_allowed])

/-- C9: a denied `is_allowed` call appends nothing — the state afterwards
is exactly the old timestamp list pruned to the window, so the stored
timestamps inside the current window are unchanged and the list never
grows on denial; denied bursts cannot extend the denial period. -/
theorem c9_denied_leaves_log_unchanged (rule : Rule) (cint : ℚ)
    (st : LimiterState) (now : ℚ)
    (hdeny : (is_allowed rule cint st now).allowed = false) :
    (is_allowed rule cint st now).state.ts
        = st.ts.filter (fun s => decide (now - rule.window < s))
    ∧ (is_allowed rule cint st now).state.ts.filter
          (fun s => decide (now - rule.window < s))
        = st.ts.filter (fun s => decide (now - rule.window < s))
    ∧ (is_allowed rule cint st now).state.ts.length ≤ st.ts.length := by
  rw [is_allowed_eq] at hdeny ⊢
  by_cases hlen :
      (st.ts.filter (recentP rule.window now)).length < rule.maxRequests
  · rw [if_pos hlen] at hdeny
    simp at hdeny
  · rw [if_neg hlen] at hdeny ⊢
    refine ⟨rfl, ?_, List.length_filter_le _ _⟩
    show (st.ts.filter (recentP rule.window now)).filter
        (recentP rule.window now) = st.ts.filter (recentP rule.window now)
    rw [List.filter_filter]
    apply List.filter_congr
    intro s _
    exact Bool.and_self _

/-- C9 witness: instantiated on the concrete denial at t=0 with one stored
timestamp 0 under `max_requests=1`. -/
theorem c9_denied_leaves_log_unchanged_witness :
    (is_allowed ⟨1, 60⟩ 3600 ⟨[0], 0⟩ 0).state.ts
        = ([0] : List ℚ).filter (fun s => decide ((0 : ℚ) - 60 < s))
    ∧ (is_allowed ⟨1, 60⟩ 3600 ⟨[0], 0⟩ 0).state.ts.filter
          (fun s => decide ((0 : ℚ) - 60 < s))
        = ([0] : List ℚ).filter (fun s => decide ((0 : ℚ) - 60 < s))
    ∧ (is_allowed ⟨1, 60⟩ 3600 ⟨[0], 0⟩ 0).state.ts.length
        ≤ ([0] : List ℚ).length :=
  c9_denied_leaves_log_unchanged ⟨1, 60⟩ 3600 ⟨[0], 0⟩ 0
    (by norm_num [is_allowed])

end RateLimit
